import Mathlib

/-!
Verification of the kv_engine background-maintenance core: the MCBP SLA
threshold configuration (src/protocol/mcbp/libmcbp/sla.cc), the executor
scheduler data (src/unnamed/part_000, scheduler.h) and the two-phase
ephemeral tombstone purger (src/engines/ep/src/ephemeral_tombstone_purger.h).
Definitions are shallow embeddings of the C++ source; where only a
declaration is under src/ the body is modelled from the specification and
marked as such in its doc comment.
-/

namespace Sla

/-- A cJSON value, restricted to the shapes sla.cc inspects: numbers
(`cJSON_Number`, with `valueint`), strings (`cJSON_String`, `valuestring`),
objects (child list of named entries) and anything else. -/
inductive JValue where
  | num (v : Int)
  | str (s : String)
  | obj (fields : List (String × JValue))
  | other

/-- A cJSON object: the ordered child list of (name, value) pairs. -/
abbrev JObj := List (String × JValue)

/-- The `cJSON_GetObjectItem` lookup: the first child with the given name. -/
def getObjectItem (o : JObj) (name : String) : Option JValue :=
  (o.find? (fun p => p.1 == name)).map Prod.snd

/-- The `std::isspace` predicate for the default C locale. -/
def isSpaceC (c : Char) : Bool :=
  c = ' ' || c = '\t' || c = '\n' || c = '\x0b' || c = '\x0c' || c = '\r'

/-- Accumulate a run of decimal digits (the digit-consuming loop inside
`std::stoi`), returning the value so far and the unconsumed rest. -/
def digitsVal (acc : Int) : List Char → Int × List Char
  | c :: cs =>
    if c.isDigit then digitsVal (acc * 10 + ((c.toNat : Int) - 48)) cs
    else (acc, c :: cs)
  | [] => (acc, [])

/-- The `std::stoi(s, &pos)` call: skip leading whitespace, optional sign, then at
least one digit; `none` models the `std::invalid_argument` throw. Returns
the parsed value and the rest of the string after the number. -/
def stoi (s : List Char) : Option (Int × List Char) :=
  let s1 := s.dropWhile isSpaceC
  match s1 with
  | [] => none
  | c :: rest =>
    if c = '-' then
      match rest with
      | d :: _ => if d.isDigit then some ((fun p => (-p.1, p.2)) (digitsVal 0 rest)) else none
      | [] => none
    else if c = '+' then
      match rest with
      | d :: _ => if d.isDigit then some (digitsVal 0 rest) else none
      | [] => none
    else if c.isDigit then some (digitsVal 0 s1)
    else none

/-- The string form of a "slow" entry (sla.cc parseThresholdEntry, string
branch): `value [specifier]`, whitespace between value and specifier
skipped, specifier truncated at its first space; result in nanoseconds. -/
def parseSlowString (s : String) : Except String Int :=
  match stoi s.data with
  | none => .error "stoi: no conversion"
  | some (value, rest) =>
    let rest := rest.dropWhile isSpaceC
    let spec := String.mk (rest.takeWhile (fun c => c ≠ ' '))
    if spec = "ns" || spec = "nanoseconds" then .ok value
    else if spec = "us" || spec = "microseconds" then .ok (value * 1000)
    else if spec = "" || spec = "ms" || spec = "milliseconds" then .ok (value * 1000000)
    else if spec = "s" || spec = "seconds" then .ok (value * 1000000000)
    else if spec = "m" || spec = "minutes" then .ok (value * 60 * 1000000000)
    else if spec = "h" || spec = "hours" then .ok (value * 3600 * 1000000000)
    else .error ("contains an unknown specifier: " ++ spec)

/-- sla.cc parseThresholdEntry: the entry must be an object with a
mandatory "slow" member; a number is milliseconds, a string is parsed by
`parseSlowString`; everything else throws. Result in nanoseconds. -/
def parseThresholdEntry (v : JValue) : Except String Int :=
  match v with
  | .obj fields =>
    match getObjectItem fields "slow" with
    | none => .error "does not contain a mandatory slow entry"
    | some (.num n) => .ok (n * 1000000)
    | some (.str s) => parseSlowString s
    | some _ => .error "is not a value or a string"
  | _ => .error "is not an object"

/-- Modelled from the spec: `to_opcode` is declared in the protocol layer
(mcbp/protocol/opcode.h), whose body is not under src/. It maps a textual
command name to its opcode number and throws `std::invalid_argument`
(`none` here) for an unknown name. A few representative entries of the
MCBP opcode table suffice for the claims. -/
def to_opcode (s : String) : Option Nat :=
  if s = "get" then some 0x00
  else if s = "set" then some 0x01
  else if s = "add" then some 0x02
  else if s = "replace" then some 0x03
  else if s = "delete" then some 0x04
  else if s = "get_replica" then some 0x83
  else if s = "compact_db" then some 0xb3
  else none

/-- The backing store for the thresholds: sla.cc's
`std::array<std::atomic<std::chrono::nanoseconds>, 0x100> threshold`. -/
def Thresholds : Type := Fin 256 → Int

/-- A single `threshold[i].store(v)`. -/
def storeThreshold (st : Thresholds) (i : Fin 256) (v : Int) : Thresholds :=
  fun j => if j = i then v else st j

/-- The `for (auto& t : threshold) t.store(val)` loop applying a "default"
entry to every slot. -/
def setAllThresholds (v : Int) : Thresholds :=
  fun _ => v

/-- The `for (obj = root->child; ...)` loop of sla.cc reconfigure: walk the
children in order, skip "version"/"default"/"comment", resolve each name
via `to_opcode`, parse its threshold, and (when `apply`) store it at
`uint8_t(opcode)`. The first failure stops the walk with the stores made
so far kept (the C++ throw). -/
def applyEntries (apply : Bool) : JObj → Thresholds → Thresholds × Option String
  | [], st => (st, none)
  | (name, v) :: rest, st =>
    if name == "version" || name == "default" || name == "comment" then
      applyEntries apply rest st
    else
      match to_opcode name with
      | none => (st, some ("Unknown command " ++ name))
      | some opcode =>
        match parseThresholdEntry v with
        | .error e => (st, some e)
        | .ok value =>
          applyEntries apply rest
            (if apply then storeThreshold st ⟨opcode % 256, Nat.mod_lt _ (by norm_num)⟩ value
             else st)

/-- sla.cc `reconfigure(const cJSON& doc, bool apply)`: validate the
mandatory "version" (a number equal to 1), apply a "default" entry to all
slots when present, then walk the individual entries. The returned pair is
the threshold store after the call and the raised error, if any; stores
performed before a throw remain in place. -/
def reconfigure (doc : JObj) (apply : Bool) (st : Thresholds) : Thresholds × Option String :=
  match getObjectItem doc "version" with
  | none => (st, some "Missing mandatory element version")
  | some (.num n) =>
    if n = 1 then
      match getObjectItem doc "default" with
      | none => applyEntries apply doc st
      | some v =>
        match parseThresholdEntry v with
        | .error e => (st, some e)
        | .ok value => applyEntries apply doc (if apply then setAllThresholds value else st)
    else (st, some "Unsupported version")
  | some _ => (st, some "version should be a number")

/-- sla.cc `getSlowOpThreshold`: narrow the opcode to `uint8_t` and read
the slot. -/
def getSlowOpThreshold (st : Thresholds) (opcode : Nat) : Int :=
  st ⟨opcode % 256, Nat.mod_lt _ (by norm_num)⟩

end Sla

namespace Eph

/-- The tri-state lifecycle tag of an OrderedStoredValue: alive, a
tombstone (deleted but still findable by key), or stale (unlinked from the
HashTable, pending deletion from the SequenceList). -/
inductive Tag where
  | Live
  | Tombstoned
  | Stale
deriving DecidableEq

/-- An OrderedStoredValue as the purger tasks see it: key, sequence
number, deletion time, lifecycle tag, and whether it is linked into a
HashTable bucket chain (`inHT`). -/
structure StoredValue where
  key : Nat
  seqno : Nat
  deleteTime : Nat
  tag : Tag
  inHT : Bool
deriving DecidableEq

/-- An in-flight range read over the SequenceList: the window of sequence
numbers `[low, high]` the external consumer is scanning. -/
structure Cursor where
  low : Nat
  high : Nat
deriving DecidableEq

/-- Whether a cursor's window covers the given sequence number. -/
def Cursor.covers (c : Cursor) (s : Nat) : Bool :=
  decide (c.low ≤ s) && decide (s ≤ c.high)

/-- Whether any active range-read cursor covers the sequence number. -/
def coveredByAny (cs : List Cursor) (s : Nat) : Bool :=
  cs.any (fun c => c.covers s)

/-- The purge condition of EphemeralVBucket::HTTombstonePurger: the item
is in the HashTable, is a tombstone, and its age `now - delete_time`
strictly exceeds `purgeAge`. -/
def staleEligible (now purgeAge : Nat) (v : StoredValue) : Bool :=
  v.inHT && decide (v.tag = .Tombstoned) && decide (purgeAge < now - v.deleteTime)

/-- Modelled from the spec: the body of
`EphemeralVBucket::HTTombstonePurger::visit` is not under src/. Per the
spec and the header comment, a visited tombstone whose age
`now - delete_time` exceeds the purge age is unlinked from the HashTable
(no longer findable by key) and marked stale; every other item is left
untouched. -/
def purgerVisit (now purgeAge : Nat) (v : StoredValue) : StoredValue :=
  if staleEligible now purgeAge v then { v with tag := .Stale, inHT := false } else v

/-- Modelled from the spec: one pass of the HashTable cleaner
(EphemeralVBucket::HTCleaner driving HTTombstonePurger over every item),
returning the visited items and the count of items marked stale. -/
def cleanerPass (now purgeAge : Nat) (items : List StoredValue) : List StoredValue × Nat :=
  (items.map (purgerVisit now purgeAge), items.countP (staleEligible now purgeAge))

/-- The outcome of one EphTombstoneHTCleaner::run. -/
structure CleanerResult where
  items : List StoredValue
  numStaled : Nat
  wokeReaper : Bool
  again : Bool
deriving DecidableEq

/-- Modelled from the spec: the body of `EphTombstoneHTCleaner::run` is
not under src/. It runs the HashTable cleaner pass and, if any items were
marked stale this pass, wakes the paired EphTombstoneStaleItemDeleter
task; the task itself reschedules (returns true). -/
def cleanerRun (now purgeAge : Nat) (items : List StoredValue) : CleanerResult :=
  let p := cleanerPass now purgeAge items
  { items := p.1, numStaled := p.2, wokeReaper := decide (0 < p.2), again := true }

/-- Whether one Reaper pass frees the item: its tag is Stale and no active
cursor's window covers its sequence number. -/
def reaperFrees (cursors : List Cursor) (v : StoredValue) : Bool :=
  decide (v.tag = .Stale) && !coveredByAny cursors v.seqno

/-- Modelled from the spec: one pass of the stale item deleter over the
SequenceList — free (unlink and delete) every stale item not covered by
any active cursor window, skip everything else; returns the surviving
SequenceList and the count freed. -/
def reaperPass (cursors : List Cursor) (items : List StoredValue) : List StoredValue × Nat :=
  (items.filter (fun v => !reaperFrees cursors v), items.countP (reaperFrees cursors))

/-- Modelled from the spec: the body of
`EphTombstoneStaleItemDeleter::run` is not under src/. It performs one
reaper pass and always returns true ("continue"): the task reschedules
itself regardless of how many items were freed or skipped. -/
def reaperRun (cursors : List Cursor) (items : List StoredValue) :
    (List StoredValue × Nat) × Bool :=
  (reaperPass cursors items, true)

/-- An ephemeral vBucket as the claims see it: the SequenceList of items
(ordered, also carrying the HashTable linkage flag of each item) and the
next sequence number to assign. -/
structure VBState where
  items : List StoredValue
  nextSeq : Nat
deriving DecidableEq

/-- The items reachable via HashTable key lookup: exactly those linked
into a bucket chain. -/
def htContents (st : VBState) : List StoredValue :=
  st.items.filter (fun v => v.inHT)

/-- The items reachable via ordered (sequence) iteration: the whole
SequenceList. -/
def seqIteration (st : VBState) : List StoredValue :=
  st.items

/-- The operations of the claims' lifecycle: insert of a key, delete of a
key at a time, a Cleaner pass, a Reaper pass. -/
inductive Op where
  | insert (k : Nat)
  | del (k : Nat) (t : Nat)
  | cleaner (now purgeAge : Nat)
  | reaper (cursors : List Cursor)

/-- Modelled from the spec: insert of key `k`. A new Live item is
appended to the SequenceList and linked into the HashTable; an existing
revision of the key still in the HashTable is unlinked and marked stale
(the copy-on-conflict path by which non-tombstone items become stale). -/
def insertOp (k : Nat) (st : VBState) : VBState :=
  { items :=
      st.items.map (fun v =>
        if v.inHT && decide (v.key = k) then { v with tag := .Stale, inHT := false } else v)
      ++ [{ key := k, seqno := st.nextSeq, deleteTime := 0, tag := .Live, inHT := true }],
    nextSeq := st.nextSeq + 1 }

/-- Modelled from the spec: delete of key `k` at time `t`. The Live item
for the key (found via the HashTable) becomes Tombstoned with
`deleteTime = t`, staying linked in the HashTable. -/
def deleteOp (k t : Nat) (st : VBState) : VBState :=
  { st with items :=
      st.items.map (fun v =>
        if v.inHT && decide (v.key = k) && decide (v.tag = .Live) then
          { v with tag := .Tombstoned, deleteTime := t }
        else v) }

/-- Apply one lifecycle operation to the vBucket state. -/
def applyOp : Op → VBState → VBState
  | .insert k, st => insertOp k st
  | .del k t, st => deleteOp k t st
  | .cleaner now purgeAge, st =>
    { st with items := (cleanerPass now purgeAge st.items).1 }
  | .reaper cursors, st =>
    { st with items := (reaperPass cursors st.items).1 }

/-- The ownership invariant: an item is linked into the HashTable exactly
when its tag is Live or Tombstoned. -/
def WellFormed (st : VBState) : Prop :=
  ∀ v ∈ st.items, v.inHT = true ↔ (v.tag = .Live ∨ v.tag = .Tombstoned)

end Eph

namespace Executor

/-- scheduler.h `executor_state_t`. -/
inductive ExecState where
  | CREATING
  | RUNNING
  | WAITING
  | SLEEPING
  | SHUTDOWN
  | DEAD
deriving DecidableEq

/-- scheduler.h `TASK_LOG_SIZE`: the capacity of both per-thread
execution-history ring buffers. -/
def TASK_LOG_SIZE : Nat := 20

/-- scheduler.h `TaskLogEntry`: name, start timestamp and duration of a
past job run. -/
structure TaskLogEntry where
  name : String
  ts : Nat
  duration : Nat
deriving DecidableEq

/-- A `RingBuffer<TaskLogEntry>` of the given capacity: its contents,
oldest first. -/
structure RingBuffer where
  capacity : Nat
  data : List TaskLogEntry
deriving DecidableEq

/-- Modelled from the spec: ringbuffer.h is not under src/. Adding to a
bounded ring buffer appends the entry; when the buffer already holds
`capacity` entries the oldest entry is overwritten (dropped) rather than
growing the buffer or failing. -/
def RingBuffer.add (rb : RingBuffer) (e : TaskLogEntry) : RingBuffer :=
  if rb.data.length < rb.capacity then { rb with data := rb.data ++ [e] }
  else { rb with data := rb.data.tail ++ [e] }

/-- The per-worker data of scheduler.h's ExecutorThread that the claims
mention: its state, the general execution log (`tasklog`), and the
slow-execution log (`slowjobs`), both constructed with capacity
`TASK_LOG_SIZE`. -/
structure ExecutorThread where
  state : ExecState
  tasklog : RingBuffer
  slowjobs : RingBuffer
deriving DecidableEq

/-- A fresh worker, as built by the ExecutorThread constructor:
`tasklog(TASK_LOG_SIZE), slowjobs(TASK_LOG_SIZE)`. -/
def mkExecutorThread : ExecutorThread :=
  { state := .CREATING,
    tasklog := { capacity := TASK_LOG_SIZE, data := [] },
    slowjobs := { capacity := TASK_LOG_SIZE, data := [] } }

/-- Modelled from the spec: the body of ExecutorThread::run is not under
src/. Recording a completed run logs its entry into the general task log;
when the run's duration exceeds the slow-execution threshold it is
additionally recorded into the slow-job log. -/
def logRun (w : ExecutorThread) (e : TaskLogEntry) (slowThreshold : Nat) : ExecutorThread :=
  let w1 := { w with tasklog := w.tasklog.add e }
  if slowThreshold < e.duration then { w1 with slowjobs := w1.slowjobs.add e } else w1

/-- What one task execution reports back to the worker loop: a normal
completion carrying the task's continue/stop result, or an unexpected
fault carrying its message. -/
inductive RunOutcome where
  | completed (again : Bool)
  | fault (msg : String)
deriving DecidableEq

/-- Modelled from the spec: the body of ExecutorThread::run is not under
src/. Executing one task at the scheduler boundary: a normal completion
yields the task's own continue/stop answer, while an unexpected fault is
caught right there, logged, and treated as "continue" — it never
propagates out of the worker loop and never changes the worker's state.
Returns the worker afterwards and whether the task is rescheduled. -/
def workerStep (w : ExecutorThread) (outcome : RunOutcome) : ExecutorThread × Bool :=
  match outcome with
  | .completed again => (w, again)
  | .fault _ => (w, true)

end Executor

/-! Concrete data used by the counterexample and witnesses for the
configuration claims. -/

/-- A configuration document whose first two entries are valid and whose
third entry names an unknown command. -/
def exampleDoc : Sla.JObj :=
  [("version", .num 1),
   ("get", .obj [("slow", .num 100)]),
   ("bogus_command", .obj [("slow", .num 1)])]

/-- A threshold store with every slot set to 0. -/
def zeroThresholds : Sla.Thresholds := fun _ => 0

/-- Holds (`true`) when `parseThresholdEntry` throws on this entry. -/
def parseFails (v : Sla.JValue) : Bool :=
  match Sla.parseThresholdEntry v with
  | .ok _ => false
  | .error _ => true

/-- An individual entry on which the reconfigure walk throws: its name is
none of the skipped ones, and either the name is an unknown command or
its threshold fails to parse. -/
def entryInvalid (name : String) (v : Sla.JValue) : Bool :=
  !(name == "version" || name == "default" || name == "comment") &&
  ((Sla.to_opcode name).isNone || parseFails v)

/-- The threshold store after reconfigure's default-entry step: a valid
"default" entry has stored its value into every slot, otherwise the
store is untouched. -/
def defaultApplied (doc : Sla.JObj) (st : Sla.Thresholds) : Sla.Thresholds :=
  match Sla.getObjectItem doc "default" with
  | none => st
  | some dv =>
    match Sla.parseThresholdEntry dv with
    | .ok dval => Sla.setAllThresholds dval
    | .error _ => st

/-- A configuration document with a valid default entry, a valid "get"
entry, and then an unknown command. -/
def exampleDocD : Sla.JObj :=
  [("version", .num 1),
   ("default", .obj [("slow", .num 500)]),
   ("get", .obj [("slow", .num 100)]),
   ("bogus_command", .obj [("slow", .num 1)])]

/-- The valid three-entry head of `exampleDocD`. -/
def exampleDocDHead : Sla.JObj :=
  [("version", .num 1),
   ("default", .obj [("slow", .num 500)]),
   ("get", .obj [("slow", .num 100)])]

/-! Helper lemmas. -/

/-- With `apply = false` the entry walk stores nothing. -/
theorem applyEntries_validate_frame (l : Sla.JObj) (st : Sla.Thresholds) :
    (Sla.applyEntries false l st).1 = st := by
  induction l generalizing st with
  | nil => rfl
  | cons p rest ih =>
    obtain ⟨name, v⟩ := p
    rw [Sla.applyEntries]
    by_cases hskip : (name == "version" || name == "default" || name == "comment") = true
    · rw [if_pos hskip]
      exact ih st
    · rw [if_neg hskip]
      cases Sla.to_opcode name with
      | none => rfl
      | some opcode =>
        cases Sla.parseThresholdEntry v with
        | error e => rfl
        | ok value => simpa using ih st

/-- The entry walk stops at the first invalid entry: an error is raised
and the store equals the store after the walk of the valid head alone. -/
theorem applyEntries_stops_at_invalid (apply : Bool) (l1 l2 : Sla.JObj)
    (name : String) (v : Sla.JValue) (st : Sla.Thresholds)
    (hbad : entryInvalid name v = true) :
    (Sla.applyEntries apply (l1 ++ (name, v) :: l2) st).2.isSome = true ∧
    (Sla.applyEntries apply (l1 ++ (name, v) :: l2) st).1 =
      (Sla.applyEntries apply l1 st).1 := by
  rw [entryInvalid, Bool.and_eq_true, Bool.not_eq_true'] at hbad
  obtain ⟨hskips, hfail⟩ := hbad
  induction l1 generalizing st with
  | nil =>
    simp only [List.nil_append, Sla.applyEntries]
    rw [if_neg (by rw [hskips]; exact Bool.false_ne_true)]
    cases hop : Sla.to_opcode name with
    | none => exact ⟨rfl, rfl⟩
    | some opcode =>
      rw [Bool.or_eq_true, Option.isNone_iff_eq_none] at hfail
      rcases hfail with hfail | hfail
      · rw [hop] at hfail; cases hfail
      · cases hpe : Sla.parseThresholdEntry v with
        | error e => exact ⟨rfl, rfl⟩
        | ok value => rw [parseFails, hpe] at hfail; cases hfail
  | cons p rest ih =>
    obtain ⟨n0, v0⟩ := p
    simp only [List.cons_append, Sla.applyEntries]
    by_cases hskip : (n0 == "version" || n0 == "default" || n0 == "comment") = true
    · rw [if_pos hskip, if_pos hskip]
      exact ih st
    · rw [if_neg hskip, if_neg hskip]
      cases Sla.to_opcode n0 with
      | none => exact ⟨rfl, rfl⟩
      | some opcode =>
        cases Sla.parseThresholdEntry v0 with
        | error e => exact ⟨rfl, rfl⟩
        | ok value => exact ih _

/-- A well-formed vBucket state: key-lookup reachability coincides with a
Live or Tombstoned tag, and Stale items appear only in the ordered
iteration. -/
theorem wf_reachability (st : Eph.VBState) (h : Eph.WellFormed st) :
    ∀ v ∈ st.items,
      ((v ∈ Eph.htContents st) ↔ (v.tag = .Live ∨ v.tag = .Tombstoned)) ∧
      (v.tag = .Stale → v ∉ Eph.htContents st ∧ v ∈ Eph.seqIteration st) := by
  intro v hv
  have hiff := h v hv
  constructor
  · rw [Eph.htContents, List.mem_filter]
    constructor
    · rintro ⟨_, hin⟩
      exact hiff.mp hin
    · intro ht
      exact ⟨hv, hiff.mpr ht⟩
  · intro hstale
    refine ⟨?_, hv⟩
    rw [Eph.htContents, List.mem_filter]
    rintro ⟨_, hin⟩
    rcases hiff.mp hin with h1 | h1 <;> rw [hstale] at h1 <;> cases h1




/-! Claim theorems. -/

/-- C1: a Reaper run never frees an item whose sequence number is covered
by an active cursor window at the time of the run, and an item is freed
only when its tag is Stale and no active cursor window covers its
sequence number. -/
theorem reaper_respects_cursor_windows (cursors : List Eph.Cursor)
    (items : List Eph.StoredValue) (v : Eph.StoredValue) (hv : v ∈ items) :
    (Eph.coveredByAny cursors v.seqno = true → v ∈ (Eph.reaperRun cursors items).1.1) ∧
    (v ∉ (Eph.reaperRun cursors items).1.1 →
      v.tag = .Stale ∧ Eph.coveredByAny cursors v.seqno = false) := by
  constructor
  · intro hcov
    simp only [Eph.reaperRun, Eph.reaperPass, List.mem_filter]
    refine ⟨hv, ?_⟩
    rw [Eph.reaperFrees, hcov]
    simp
  · intro hnot
    simp only [Eph.reaperRun, Eph.reaperPass, List.mem_filter] at hnot
    push_neg at hnot
    have hfree : Eph.reaperFrees cursors v = true := by
      simpa using hnot hv
    rw [Eph.reaperFrees, Bool.and_eq_true, decide_eq_true_iff, Bool.not_eq_true'] at hfree
    exact hfree

/-- C1 witness: a concrete run over one covered Stale item (kept) and the
same run viewed through both conjuncts. -/
theorem reaper_respects_cursor_windows_witness :
    (Eph.coveredByAny [⟨5, 10⟩] (7 : Nat) = true →
      (⟨1, 7, 0, .Stale, false⟩ : Eph.StoredValue) ∈
        (Eph.reaperRun [⟨5, 10⟩] [⟨1, 7, 0, .Stale, false⟩]).1.1) ∧
    ((⟨1, 7, 0, .Stale, false⟩ : Eph.StoredValue) ∉
        (Eph.reaperRun [⟨5, 10⟩] [⟨1, 7, 0, .Stale, false⟩]).1.1 →
      (⟨1, 7, 0, .Stale, false⟩ : Eph.StoredValue).tag = .Stale ∧
        Eph.coveredByAny [⟨5, 10⟩] (⟨1, 7, 0, .Stale, false⟩ : Eph.StoredValue).seqno = false) :=
  reaper_respects_cursor_windows [⟨5, 10⟩] [⟨1, 7, 0, .Stale, false⟩]
    ⟨1, 7, 0, .Stale, false⟩ (by decide)

/-- C3: a Tombstoned item in the HashTable visited by the cleaner is
detached and marked Stale exactly when `now - delete_time > purge_age`
(strictly); in particular, with a purge age of 100s an item deleted at
t=0 is left Tombstoned by a run at t=50s and staled by a run at t=150s. -/
theorem purgerVisit_stales_iff_age_exceeded (now purgeAge : Nat) (v : Eph.StoredValue)
    (hTag : v.tag = .Tombstoned) (hHT : v.inHT = true) :
    ((Eph.purgerVisit now purgeAge v).tag = .Stale ∧
      (Eph.purgerVisit now purgeAge v).inHT = false) ↔
    purgeAge < now - v.deleteTime := by
  constructor
  · intro hst
    by_contra hlt
    have hne : Eph.staleEligible now purgeAge v = false := by
      rw [Eph.staleEligible]
      simp [hlt]
    rw [Eph.purgerVisit, hne] at hst
    simp only [Bool.false_eq_true, if_false] at hst
    rw [hTag] at hst
    cases hst.1
  · intro hlt
    have he : Eph.staleEligible now purgeAge v = true := by
      rw [Eph.staleEligible, hTag, hHT]
      simp [hlt]
    rw [Eph.purgerVisit, he]
    simp

/-- C3 witness: the 150s run stales the tombstone (via the theorem) and
the 50s run leaves it Tombstoned. -/
theorem purgerVisit_stales_iff_age_exceeded_witness :
    ((Eph.purgerVisit 150 100 ⟨7, 1, 0, .Tombstoned, true⟩).tag = .Stale ∧
      (Eph.purgerVisit 150 100 ⟨7, 1, 0, .Tombstoned, true⟩).inHT = false) ∧
    (Eph.purgerVisit 50 100 ⟨7, 1, 0, .Tombstoned, true⟩).tag = .Tombstoned :=
  ⟨(purgerVisit_stales_iff_age_exceeded 150 100 ⟨7, 1, 0, .Tombstoned, true⟩
      rfl rfl).mpr (by decide),
   by decide⟩

/-- C4: a Cleaner pass wakes the paired Reaper task exactly when it
transitioned at least one item to Stale this pass. -/
theorem cleanerRun_wakes_reaper_iff_staled (now purgeAge : Nat)
    (items : List Eph.StoredValue) :
    (Eph.cleanerRun now purgeAge items).wokeReaper = true ↔
    ∃ v ∈ items, Eph.staleEligible now purgeAge v = true := by
  rw [Eph.cleanerRun]
  simp only [Eph.cleanerPass, decide_eq_true_iff]
  exact List.countP_pos_iff

/-- C5: every run of the stale item deleter returns "continue" (true):
the task always reschedules itself, whatever it freed or skipped. -/
theorem reaperRun_always_continues (cursors : List Eph.Cursor)
    (items : List Eph.StoredValue) :
    (Eph.reaperRun cursors items).2 = true :=
  rfl

/-- C2: every lifecycle operation (insert, delete, Cleaner pass, Reaper
pass) preserves the ownership invariant, so afterwards an item is
reachable via HashTable key lookup iff its tag is Live or Tombstoned, and
a Stale item is never reachable by key, only via ordered iteration. -/
theorem applyOp_preserves_reachability (op : Eph.Op) (st : Eph.VBState)
    (h : Eph.WellFormed st) :
    Eph.WellFormed (Eph.applyOp op st) ∧
    ∀ v ∈ (Eph.applyOp op st).items,
      ((v ∈ Eph.htContents (Eph.applyOp op st)) ↔ (v.tag = .Live ∨ v.tag = .Tombstoned)) ∧
      (v.tag = .Stale →
        v ∉ Eph.htContents (Eph.applyOp op st) ∧ v ∈ Eph.seqIteration (Eph.applyOp op st)) := by
  have hwf : Eph.WellFormed (Eph.applyOp op st) := by
    cases op with
    | insert k =>
      intro v hv
      simp only [Eph.applyOp, Eph.insertOp, List.mem_append, List.mem_map,
        List.mem_singleton] at hv
      rcases hv with ⟨a, ha, rfl⟩ | rfl
      · by_cases hc : (a.inHT && decide (a.key = k)) = true
        · rw [if_pos hc]
          simp
        · rw [if_neg hc]
          exact h a ha
      · simp
    | del k t =>
      intro v hv
      simp only [Eph.applyOp, Eph.deleteOp, List.mem_map] at hv
      rcases hv with ⟨a, ha, rfl⟩
      by_cases hc : (a.inHT && decide (a.key = k) && decide (a.tag = .Live)) = true
      · rw [if_pos hc]
        rw [Bool.and_eq_true, Bool.and_eq_true] at hc
        simp [hc.1.1]
      · rw [if_neg hc]
        exact h a ha
    | cleaner now purgeAge =>
      intro v hv
      simp only [Eph.applyOp, Eph.cleanerPass, List.mem_map] at hv
      rcases hv with ⟨a, ha, rfl⟩
      rw [Eph.purgerVisit]
      by_cases hc : Eph.staleEligible now purgeAge a = true
      · rw [if_pos hc]
        simp
      · rw [if_neg hc]
        exact h a ha
    | reaper cursors =>
      intro v hv
      simp only [Eph.applyOp, Eph.reaperPass, List.mem_filter] at hv
      exact h v hv.1
  exact ⟨hwf, wf_reachability _ hwf⟩

/-- C2 witness: the insert of key 1 into the empty vBucket, checked
through the theorem. -/
theorem applyOp_preserves_reachability_witness :
    Eph.WellFormed (Eph.applyOp (.insert 1) ⟨[], 0⟩) ∧
    ∀ v ∈ (Eph.applyOp (.insert 1) ⟨[], 0⟩).items,
      ((v ∈ Eph.htContents (Eph.applyOp (.insert 1) ⟨[], 0⟩)) ↔
        (v.tag = .Live ∨ v.tag = .Tombstoned)) ∧
      (v.tag = .Stale →
        v ∉ Eph.htContents (Eph.applyOp (.insert 1) ⟨[], 0⟩) ∧
        v ∈ Eph.seqIteration (Eph.applyOp (.insert 1) ⟨[], 0⟩)) :=
  applyOp_preserves_reachability (.insert 1) ⟨[], 0⟩
    (by intro v hv; cases hv)

/-- C6: a task run that raises an unexpected fault is absorbed at the
scheduler boundary: the worker stays in its running state, never reaching
SHUTDOWN or DEAD because of the fault, and the run is treated as
"continue" (the task is rescheduled). -/
theorem workerStep_fault_never_kills_worker (w : Executor.ExecutorThread) (msg : String)
    (h : w.state = .RUNNING) :
    (Executor.workerStep w (.fault msg)).1.state = .RUNNING ∧
    (Executor.workerStep w (.fault msg)).2 = true ∧
    (Executor.workerStep w (.fault msg)).1.state ≠ .SHUTDOWN ∧
    (Executor.workerStep w (.fault msg)).1.state ≠ .DEAD := by
  refine ⟨h, rfl, ?_, ?_⟩ <;> rw [Executor.workerStep] <;> rw [h] <;> simp

/-- C6 witness: a fault on a freshly running worker. -/
theorem workerStep_fault_never_kills_worker_witness :
    (Executor.workerStep { Executor.mkExecutorThread with state := .RUNNING }
      (.fault "oops")).1.state = .RUNNING ∧
    (Executor.workerStep { Executor.mkExecutorThread with state := .RUNNING }
      (.fault "oops")).2 = true ∧
    (Executor.workerStep { Executor.mkExecutorThread with state := .RUNNING }
      (.fault "oops")).1.state ≠ .SHUTDOWN ∧
    (Executor.workerStep { Executor.mkExecutorThread with state := .RUNNING }
      (.fault "oops")).1.state ≠ .DEAD :=
  workerStep_fault_never_kills_worker { Executor.mkExecutorThread with state := .RUNNING }
    "oops" rfl

/-- C8: with both logs at their constructed capacity TASK_LOG_SIZE (20),
recording a completed run keeps each log at no more than 20 entries; a
full general log overwrites its oldest entry (the recorded entry still
lands at the newest position), and a run whose duration exceeds the
slow-execution threshold is additionally recorded into the slow log. -/
theorem logRun_bounded_ring_buffers (w : Executor.ExecutorThread)
    (e : Executor.TaskLogEntry) (thr : Nat)
    (hc1 : w.tasklog.capacity = Executor.TASK_LOG_SIZE)
    (hc2 : w.slowjobs.capacity = Executor.TASK_LOG_SIZE)
    (h1 : w.tasklog.data.length ≤ Executor.TASK_LOG_SIZE)
    (h2 : w.slowjobs.data.length ≤ Executor.TASK_LOG_SIZE) :
    ((Executor.logRun w e thr).tasklog.data.length ≤ Executor.TASK_LOG_SIZE ∧
     (Executor.logRun w e thr).slowjobs.data.length ≤ Executor.TASK_LOG_SIZE) ∧
    (w.tasklog.data.length = Executor.TASK_LOG_SIZE →
      (Executor.logRun w e thr).tasklog.data = w.tasklog.data.tail ++ [e]) ∧
    (Executor.logRun w e thr).tasklog.data.getLast? = some e ∧
    (thr < e.duration → (Executor.logRun w e thr).slowjobs.data.getLast? = some e) := by
  have hadd : ∀ (rb : Executor.RingBuffer),
      rb.capacity = Executor.TASK_LOG_SIZE → rb.data.length ≤ Executor.TASK_LOG_SIZE →
      (rb.add e).data.length ≤ Executor.TASK_LOG_SIZE ∧ (rb.add e).data.getLast? = some e := by
    intro rb hcap hlen
    rw [Executor.RingBuffer.add]
    by_cases hlt : rb.data.length < rb.capacity
    · rw [if_pos hlt]
      constructor
      · simp only [List.length_append, List.length_singleton]
        omega
      · exact List.getLast?_concat _
    · rw [if_neg hlt]
      constructor
      · simp only [List.length_append, List.length_singleton, List.length_tail]
        rw [hcap, Executor.TASK_LOG_SIZE] at hlt
        rw [Executor.TASK_LOG_SIZE] at hlen ⊢
        omega
      · exact List.getLast?_concat _
  have htask : (Executor.logRun w e thr).tasklog = w.tasklog.add e := by
    rw [Executor.logRun]
    by_cases hs : thr < e.duration
    · rw [if_pos hs]
    · rw [if_neg hs]
  refine ⟨⟨?_, ?_⟩, ?_, ?_, ?_⟩
  · rw [htask]
    exact (hadd w.tasklog hc1 h1).1
  · rw [Executor.logRun]
    by_cases hs : thr < e.duration
    · rw [if_pos hs]
      exact (hadd w.slowjobs hc2 h2).1
    · rw [if_neg hs]
      exact h2
  · intro hfull
    rw [htask, Executor.RingBuffer.add,
      if_neg (by rw [hc1, hfull]; exact Nat.lt_irrefl _)]
  · rw [htask]
    exact (hadd w.tasklog hc1 h1).2
  · intro hs
    rw [Executor.logRun, if_pos hs]
    exact (hadd w.slowjobs hc2 h2).2

/-- C8 witness: recording a slow run into a worker whose general log is
already full. -/
theorem logRun_bounded_ring_buffers_witness :
    (((Executor.logRun
        { state := .RUNNING,
          tasklog := { capacity := 20, data := List.replicate 20 ⟨"t", 0, 0⟩ },
          slowjobs := { capacity := 20, data := [] } }
        ⟨"slowTask", 3, 9⟩ 5).tasklog.data.length ≤ Executor.TASK_LOG_SIZE ∧
      (Executor.logRun
        { state := .RUNNING,
          tasklog := { capacity := 20, data := List.replicate 20 ⟨"t", 0, 0⟩ },
          slowjobs := { capacity := 20, data := [] } }
        ⟨"slowTask", 3, 9⟩ 5).slowjobs.data.length ≤ Executor.TASK_LOG_SIZE) ∧
     ((Executor.ExecutorThread.mk .RUNNING
          { capacity := 20, data := List.replicate 20 ⟨"t", 0, 0⟩ }
          { capacity := 20, data := [] }).tasklog.data.length = Executor.TASK_LOG_SIZE →
      (Executor.logRun
        { state := .RUNNING,
          tasklog := { capacity := 20, data := List.replicate 20 ⟨"t", 0, 0⟩ },
          slowjobs := { capacity := 20, data := [] } }
        ⟨"slowTask", 3, 9⟩ 5).tasklog.data =
        (List.replicate 20 (⟨"t", 0, 0⟩ : Executor.TaskLogEntry)).tail ++ [⟨"slowTask", 3, 9⟩]) ∧
     (Executor.logRun
        { state := .RUNNING,
          tasklog := { capacity := 20, data := List.replicate 20 ⟨"t", 0, 0⟩ },
          slowjobs := { capacity := 20, data := [] } }
        ⟨"slowTask", 3, 9⟩ 5).tasklog.data.getLast? = some ⟨"slowTask", 3, 9⟩ ∧
     ((5 : Nat) < (9 : Nat) →
      (Executor.logRun
        { state := .RUNNING,
          tasklog := { capacity := 20, data := List.replicate 20 ⟨"t", 0, 0⟩ },
          slowjobs := { capacity := 20, data := [] } }
        ⟨"slowTask", 3, 9⟩ 5).slowjobs.data.getLast? = some ⟨"slowTask", 3, 9⟩)) :=
  logRun_bounded_ring_buffers
    { state := .RUNNING,
      tasklog := { capacity := 20, data := List.replicate 20 ⟨"t", 0, 0⟩ },
      slowjobs := { capacity := 20, data := [] } }
    ⟨"slowTask", 3, 9⟩ 5 (by decide) (by decide) (by decide) (by decide)

/-- C9: the validation-only pass (`apply = false`) parses and checks the
whole document but stores nothing: every one of the 256 threshold slots is
unchanged afterwards, whatever the document was. -/
theorem reconfigure_validate_only_no_store (doc : Sla.JObj) (st : Sla.Thresholds)
    (i : Fin 256) :
    (Sla.reconfigure doc false st).1 i = st i := by
  rw [Sla.reconfigure]
  split
  · rfl
  · split
    · split
      · rw [applyEntries_validate_frame]
      · split
        · rfl
        · rw [if_neg Bool.false_ne_true, applyEntries_validate_frame]
    · rfl
  · rfl

/-- C10: `getSlowOpThreshold` is total on every opcode value: the opcode
is narrowed to the 0x100-entry array's index range, the lookup is always
in bounds, and it reads back the most recently stored threshold for that
opcode slot. -/
theorem getSlowOpThreshold_total_and_latest (st : Sla.Thresholds) (opcode : Nat) (v : Int) :
    opcode % 256 < 256 ∧
    Sla.getSlowOpThreshold st opcode = st ⟨opcode % 256, Nat.mod_lt _ (by norm_num)⟩ ∧
    Sla.getSlowOpThreshold
      (Sla.storeThreshold st ⟨opcode % 256, Nat.mod_lt _ (by norm_num)⟩ v) opcode = v := by
  refine ⟨Nat.mod_lt _ (by norm_num), rfl, ?_⟩
  rw [Sla.getSlowOpThreshold, Sla.storeThreshold]
  simp

/-- C7 counterexample: applying a document whose last entry names an
unknown command raises an error, yet the threshold of the earlier valid
"get" entry (opcode 0) has already been changed from 0 to 100ms — the
previously configured value does not survive, refuting the claim's frame
condition. -/
theorem reconfigure_invalid_entry_changes_values :
    (Sla.reconfigure exampleDoc true zeroThresholds).2.isSome = true ∧
    (Sla.reconfigure exampleDoc true zeroThresholds).1 (0 : Fin 256) = 100000000 ∧
    zeroThresholds (0 : Fin 256) = 0 :=
  ⟨rfl, rfl, rfl⟩

/-- When the version is the number 1 and there is no default entry,
reconfigure is exactly the walk of the individual entries. -/
theorem reconfigure_no_default_eq (doc : Sla.JObj) (apply : Bool) (st : Sla.Thresholds)
    (hver : Sla.getObjectItem doc "version" = some (.num 1))
    (hdef : Sla.getObjectItem doc "default" = none) :
    Sla.reconfigure doc apply st = Sla.applyEntries apply doc st := by
  rw [Sla.reconfigure, hver, hdef]
  rfl

/-- When the version is the number 1 and the default entry is present and
parses, reconfigure applies the default to every slot (when applying) and
then walks the individual entries from that store. -/
theorem reconfigure_default_ok_eq (doc : Sla.JObj) (apply : Bool) (st : Sla.Thresholds)
    (dv : Sla.JValue) (dval : Int)
    (hver : Sla.getObjectItem doc "version" = some (.num 1))
    (hdef : Sla.getObjectItem doc "default" = some dv)
    (hok : Sla.parseThresholdEntry dv = .ok dval) :
    Sla.reconfigure doc apply st =
      Sla.applyEntries apply doc (if apply then Sla.setAllThresholds dval else st) := by
  rw [Sla.reconfigure, hver, hdef]
  show (match Sla.parseThresholdEntry dv with
        | .error e => (st, some e)
        | .ok value =>
          Sla.applyEntries apply doc (if apply then Sla.setAllThresholds value else st)) = _
  rw [hok]

/-- C7 amended: applying a configuration document containing an invalid
entry (an unknown command name, a non-object entry, a missing mandatory
'slow' field, or an unknown unit specifier) raises an error, but it does
not leave every previously configured threshold value unchanged: the
stores already performed before the invalid entry is reached — the
all-slot store of a valid 'default' entry and the stores of the valid
entries preceding the invalid one — remain in effect, and no store is
performed for the invalid entry or for any entry after it. -/
theorem reconfigure_error_keeps_prefix_stores
    (doc l1 l2 : Sla.JObj) (name : String) (v : Sla.JValue) (st : Sla.Thresholds)
    (hver : Sla.getObjectItem doc "version" = some (.num 1))
    (hdef : Sla.getObjectItem doc "default" = none ∨
      ∃ dv dval, Sla.getObjectItem doc "default" = some dv ∧
        Sla.parseThresholdEntry dv = .ok dval)
    (hsplit : doc = l1 ++ (name, v) :: l2)
    (hbad : entryInvalid name v = true) :
    (Sla.reconfigure doc true st).2.isSome = true ∧
    (Sla.reconfigure doc true st).1 =
      (Sla.applyEntries true l1 (defaultApplied doc st)).1 := by
  rcases hdef with hdef | ⟨dv, dval, hdef, hok⟩
  · have hbase : defaultApplied doc st = st := by
      rw [defaultApplied, hdef]
    rw [reconfigure_no_default_eq _ _ _ hver hdef, hbase, hsplit]
    exact applyEntries_stops_at_invalid true l1 l2 name v _ hbad
  · have hbase : defaultApplied doc st = Sla.setAllThresholds dval := by
      rw [defaultApplied, hdef]
      show (match Sla.parseThresholdEntry dv with
            | .ok dval => Sla.setAllThresholds dval
            | .error _ => st) = _
      rw [hok]
    rw [reconfigure_default_ok_eq _ _ _ _ _ hver hdef hok, if_pos rfl, hbase, hsplit]
    exact applyEntries_stops_at_invalid true l1 l2 name v _ hbad

/-- C7 amended witness: a concrete document with a valid default entry, a
valid "get" entry and then an unknown command; the error is raised and
the final store is the one produced by walking the valid head over the
default-filled store. -/
theorem reconfigure_error_keeps_prefix_stores_witness :
    (Sla.reconfigure exampleDocD true zeroThresholds).2.isSome = true ∧
    (Sla.reconfigure exampleDocD true zeroThresholds).1 =
      (Sla.applyEntries true exampleDocDHead (defaultApplied exampleDocD zeroThresholds)).1 :=
  reconfigure_error_keeps_prefix_stores exampleDocD exampleDocDHead []
    "bogus_command" (.obj [("slow", .num 1)]) zeroThresholds rfl
    (Or.inr ⟨.obj [("slow", .num 500)], 500000000, rfl, rfl⟩) rfl rfl
